import Mathlib

/-!
Verification of the fair multi-source selection and extraction pipeline of
`daily_bot.py` (functions `fetch_news`, `generate_summary`, and the
persistence step of `main`), via a shallow embedding in Lean.

Strings are modelled as Lean `String`s; Python slicing `s[:n]` counts
Unicode code points, modelled by taking a prefix of the `String`'s
character list.  Network effects (feed polling, article download, the
summarization API call) are modelled as explicit oracle inputs: a poll
either fails (`none`) or yields a feed title plus an ordered entry list,
and each article-extraction attempt is numbered by a global call counter
so that distinct attempts on the same link may have distinct outcomes,
as real network calls do.
-/

namespace DailyBot

/-- A feedparser entry as consumed by `fetch_news`: `getattr(entry, "link", None)`,
`entry.get("title", ...)`, `entry.get("published", ...)`.  A `none` field models
a missing attribute/key. -/
structure Entry where
  link : Option String
  title : Option String
  published : Option String
deriving DecidableEq

/-- The result of a successful `newspaper.Article` download+parse: the parsed
page title (`art.title`, possibly `None` or empty) and the page text
(`art.text`, possibly `None` or empty). -/
structure Extracted where
  title : Option String
  text : Option String
deriving DecidableEq

/-- The dict appended to `selected` in `fetch_news` (daily_bot.py lines 109-115). -/
structure Article where
  title : String
  link : String
  text : String
  published : String
  source : String
deriving DecidableEq

/-- Python string slicing `s[:n]`: the first `n` Unicode code points of `s`. -/
def strTake (s : String) (n : Nat) : String :=
  ⟨s.data.take n⟩

/-- Python `x or d` for an optional string `x`: `d` when `x` is `None` or empty
(falsy), otherwise `x` itself. -/
def pyOr (o : Option String) (d : String) : String :=
  match o with
  | some s => if s = "" then d else s
  | none => d

/-- The `text` field of a selected article: `art.text[:2000] if art.text else ""`
(daily_bot.py line 112). -/
def textField (t : Option String) : String :=
  match t with
  | some s => if s = "" then "" else strTake s 2000
  | none => ""

/-- The article dict built at daily_bot.py lines 109-115 from the feed entry `e`,
its (truthy, unseen) link `l`, the extraction result `x` and the feed's source
name `src`:
`{"title": entry.get("title", art.title or "No Title"), "link": link,`
` "text": art.text[:2000] if art.text else "", `
` "published": entry.get("published", "Unknown"), "source": source_name}`. -/
def mkArticle (src : String) (e : Entry) (l : String) (x : Extracted) : Article :=
  { title := e.title.getD (pyOr x.title "No Title")
    link := l
    text := textField x.text
    published := e.published.getD "Unknown"
    source := src }

/-- Extraction oracle: `xt k l` is the outcome of the `k`-th article download
attempt of the run (`Article(link); art.download(); art.parse()`), targeting
link `l`; `none` models an exception (caught at daily_bot.py lines 117-119). -/
abbrev Xt := Nat → String → Option Extracted

/-- Mutable loop state of `fetch_news`'s selection loop: number of extraction
attempts made so far, the `seen_links` set (as the list of links added, most
recent first) and the `selected` list. -/
structure Acc where
  calls : Nat
  seen : List String
  sel : List Article
deriving DecidableEq

/-- One surviving feed in `feed_entries`: its source name paired with its
remaining entry queue. -/
abbrev Feed := String × List Entry

/-- The inner `while entries and taken < max_per_round` loop of `fetch_news`
(daily_bot.py lines 99-119) for one feed: pop entries from the front; skip
falsy or already-seen links; otherwise record the link in `seen_links`, attempt
extraction, and on success append the article and stop (`taken` reaches 1);
on failure keep popping.  Returns the feed's remaining entries and the new
state. -/
def takeFrom (xt : Xt) (src : String) : List Entry → Acc → List Entry × Acc
  | [], acc => ([], acc)
  | e :: rest, acc =>
    match e.link with
    | none => takeFrom xt src rest acc
    | some l =>
      if l = "" then takeFrom xt src rest acc
      else if l ∈ acc.seen then takeFrom xt src rest acc
      else
        match xt acc.calls l with
        | some x =>
            (rest, { calls := acc.calls + 1, seen := l :: acc.seen,
                     sel := acc.sel ++ [mkArticle src e l x] })
        | none =>
            takeFrom xt src rest
              { calls := acc.calls + 1, seen := l :: acc.seen, sel := acc.sel }

/-- One round of the `for feed_idx, entries in enumerate(feed_entries)` loop
(daily_bot.py lines 95-124): visit feeds in declared order, breaking out as
soon as `len(selected) >= max_articles` (remaining feeds untouched); each
visited feed runs `takeFrom`; feeds whose queue is exhausted are removed,
order of the rest preserved. -/
def roundStep (xt : Xt) (maxA : Nat) : List Feed → Acc → List Feed × Acc
  | [], acc => ([], acc)
  | f :: fs, acc =>
    if maxA ≤ acc.sel.length then (f :: fs, acc)
    else
      let p := takeFrom xt f.1 f.2 acc
      let q := roundStep xt maxA fs p.2
      (if p.1 = [] then q.1 else (f.1, p.1) :: q.1, q.2)

/-- The outer `while len(selected) < max_articles and feed_entries:` loop
(daily_bot.py lines 93-124), fuelled: each unit of fuel permits one round.
`none` means the fuel ran out before the loop's exit condition held. -/
def fetchLoop (xt : Xt) (maxA : Nat) : Nat → List Feed → Acc → Option (List Article)
  | 0, _, _ => none
  | fuel + 1, feeds, acc =>
    if maxA ≤ acc.sel.length ∨ feeds = [] then some acc.sel
    else
      let p := roundStep xt maxA feeds acc
      fetchLoop xt maxA fuel p.1 p.2

/-- Step 1 of `fetch_news` (daily_bot.py lines 74-84): each poll either raised
(`none`, feed skipped) or produced a source name and entry list; feeds with an
empty entry list are not appended (`if entries:`). -/
def initFeeds (polls : List (Option (String × List Entry))) : List Feed :=
  polls.filterMap fun p =>
    match p with
    | none => none
    | some (src, es) => if es = [] then none else some (src, es)

/-- Total number of queued entries across the surviving feeds. -/
def totalEntries (feeds : List Feed) : Nat :=
  (feeds.map fun f => f.2.length).sum

/-- `fetch_news(rss_urls, max_articles)` (daily_bot.py lines 71-126) over the
poll outcomes and the extraction oracle: build `feed_entries`, return `[]` if
empty, otherwise run the round-robin selection loop and return
`selected[:max_articles]`.  The loop is given fuel `totalEntries + 1`, which
is proved sufficient (`fetchLoop_some`). -/
def fetch_news (xt : Xt) (polls : List (Option (String × List Entry)))
    (maxA : Nat) : List Article :=
  let fe := initFeeds polls
  if fe = [] then []
  else ((fetchLoop xt maxA (totalEntries fe + 1) fe ⟨0, [], []⟩).getD []).take maxA

/-- `generate_summary(topic, articles)` (daily_bot.py lines 131-190).  The Groq
chat-completion call is the external summarization service; its request is a
pure function of `topic` and `articles`, so the call is modelled as an oracle
`svc : String → List Article → Option String`, `none` standing for a raised
exception (caught at lines 188-190). -/
def generate_summary (svc : String → List Article → Option String)
    (topic : String) (articles : List Article) : String :=
  if articles = [] then "No articles were available to summarize for this topic."
  else
    match svc topic articles with
    | some s => s
    | none => "Summary generation failed due to an API error."

/-! ### Persistence model

The persistence step of `main` (daily_bot.py lines 234-237) is
`with open(output_path, "w", encoding="utf-8") as f: json.dump(daily_data, f, ...)`.
CPython's `open` with mode `"w"` truncates the target file at the moment it is
opened; `json.dump` then streams the serialized document into the open file.
The observable file states of this in-place write are modelled below. -/

/-- Observable state of `daily_data.json`: `none` when the file does not exist,
`some s` when it exists with contents `s`. -/
structure FS where
  contents : Option String
deriving DecidableEq

/-- File state during the dump, after the `open(output_path, "w")` truncation
and the first `k` code points of the document having been written.  `k = 0` is
the state right after the open; `k = doc.length` is the completed write. -/
def dumpState (doc : String) (k : Nat) : FS :=
  ⟨some (strTake doc k)⟩

/-- The sequence of file states a reader could observe across the persistence
step writing `doc` over prior state `prior`: the prior state, then every
partial-write state of the in-place dump through completion. -/
def saveObservable (prior : FS) (doc : String) : List FS :=
  prior :: (List.range (doc.length + 1)).map (dumpState doc)

/-- Spec-side property (stated from the spec's words, for comparison with the
code model): the write is atomic — a reader never observes anything but the
prior state or the completed document. -/
def AtomicReplace (prior : FS) (doc : String) : Prop :=
  ∀ s ∈ saveObservable prior doc, s = prior ∨ s = ⟨some doc⟩

/-! ### Invariants -/

/-- Provenance of a selected article: it was built by `mkArticle` from some
entry with a truthy link `l` and the successful outcome of some extraction
attempt on `l`. -/
def Prov (xt : Xt) (a : Article) : Prop :=
  ∃ src e l x k, e.link = some l ∧ l ≠ "" ∧ xt k l = some x ∧ a = mkArticle src e l x

/-- Invariant of the selection state: selected links are pairwise distinct,
every selected link has been recorded in `seen_links`, and every selected
article has extraction provenance. -/
def SelInv (xt : Xt) (acc : Acc) : Prop :=
  (acc.sel.map Article.link).Nodup ∧ (∀ a ∈ acc.sel, a.link ∈ acc.seen) ∧
    ∀ a ∈ acc.sel, Prov xt a

/-! ### Concrete scenario data

Data for the spec's fairness scenario (feeds `A = [a1, a2, a3]`,
`B = [b1, b2]`, `C` fails to poll) and for the duplicate-after-failure
scenario (two feeds offering the same link `x`, whose first download attempt
raises and whose second would succeed). -/

/-- Extraction outcome in the all-successes scenario: page title `T <link>`,
page text `body <link>`. -/
def extC1 (l : String) : Extracted :=
  ⟨some ("T " ++ l), some ("body " ++ l)⟩

/-- Extraction oracle for the fairness scenario: every download succeeds. -/
def xtC1 : Xt := fun _ l => some (extC1 l)

def eA1 : Entry := ⟨some "a1", some "tA1", some "p1"⟩

def eA2 : Entry := ⟨some "a2", none, none⟩

def eA3 : Entry := ⟨some "a3", some "tA3", none⟩

def eB1 : Entry := ⟨some "b1", some "tB1", some "p2"⟩

def eB2 : Entry := ⟨some "b2", none, some "p3"⟩

/-- Poll outcomes of the fairness scenario: feed `A` yields three entries,
feed `B` two, feed `C` fails to poll. -/
def pollsC1 : List (Option (String × List Entry)) :=
  [some ("A", [eA1, eA2, eA3]), some ("B", [eB1, eB2]), none]

def artA1 : Article := mkArticle "A" eA1 "a1" (extC1 "a1")

def artA2 : Article := mkArticle "A" eA2 "a2" (extC1 "a2")

def artB1 : Article := mkArticle "B" eB1 "b1" (extC1 "b1")

def artB2 : Article := mkArticle "B" eB2 "b2" (extC1 "b2")

/-- Extraction oracle for the duplicate-after-failure scenario: the first
download attempt of the run (call 0) raises, every later attempt succeeds. -/
def xtC4 : Xt := fun k _ => if k = 0 then none else some ⟨some "T", some "body"⟩

def eX1 : Entry := ⟨some "x", some "tx", none⟩

def eX2 : Entry := ⟨some "x", some "tx2", none⟩

/-- Poll outcomes of the duplicate-after-failure scenario: two feeds, each
offering one entry with the same link `x`. -/
def pollsC4 : List (Option (String × List Entry)) :=
  [some ("A", [eX1]), some ("B", [eX2])]

/-! ### Step lemmas -/

theorem takeFrom_nil (xt : Xt) (src : String) (acc : Acc) :
    takeFrom xt src [] acc = ([], acc) := rfl

theorem takeFrom_cons_none (xt : Xt) (src : String) {e : Entry} (es : List Entry)
    (acc : Acc) (h : e.link = none) :
    takeFrom xt src (e :: es) acc = takeFrom xt src es acc := by
  rw [takeFrom, h]

theorem takeFrom_cons_empty (xt : Xt) (src : String) {e : Entry} (es : List Entry)
    (acc : Acc) (h : e.link = some "") :
    takeFrom xt src (e :: es) acc = takeFrom xt src es acc := by
  rw [takeFrom, h]
  simp

theorem takeFrom_cons_seen (xt : Xt) (src : String) {e : Entry} (es : List Entry)
    (acc : Acc) {l : String} (h : e.link = some l) (h1 : l ≠ "") (h2 : l ∈ acc.seen) :
    takeFrom xt src (e :: es) acc = takeFrom xt src es acc := by
  rw [takeFrom, h]
  simp only [if_neg h1, if_pos h2]

theorem takeFrom_cons_fail (xt : Xt) (src : String) {e : Entry} (es : List Entry)
    (acc : Acc) {l : String} (h : e.link = some l) (h1 : l ≠ "") (h2 : l ∉ acc.seen)
    (hx : xt acc.calls l = none) :
    takeFrom xt src (e :: es) acc =
      takeFrom xt src es ⟨acc.calls + 1, l :: acc.seen, acc.sel⟩ := by
  rw [takeFrom, h]
  simp only [if_neg h1, if_neg h2, hx]

theorem takeFrom_cons_accept (xt : Xt) (src : String) {e : Entry} (es : List Entry)
    (acc : Acc) {l : String} {x : Extracted} (h : e.link = some l) (h1 : l ≠ "")
    (h2 : l ∉ acc.seen) (hx : xt acc.calls l = some x) :
    takeFrom xt src (e :: es) acc =
      (es, ⟨acc.calls + 1, l :: acc.seen, acc.sel ++ [mkArticle src e l x]⟩) := by
  rw [takeFrom, h]
  simp only [if_neg h1, if_neg h2, hx]

theorem roundStep_nil (xt : Xt) (maxA : Nat) (acc : Acc) :
    roundStep xt maxA [] acc = ([], acc) := rfl

theorem roundStep_cons_cap (xt : Xt) (maxA : Nat) (f : Feed) (fs : List Feed)
    (acc : Acc) (h : maxA ≤ acc.sel.length) :
    roundStep xt maxA (f :: fs) acc = (f :: fs, acc) := by
  rw [roundStep, if_pos h]

theorem roundStep_cons_go (xt : Xt) (maxA : Nat) (f : Feed) (fs : List Feed)
    (acc : Acc) (h : ¬ maxA ≤ acc.sel.length) :
    roundStep xt maxA (f :: fs) acc =
      ((if (takeFrom xt f.1 f.2 acc).1 = []
          then (roundStep xt maxA fs (takeFrom xt f.1 f.2 acc).2).1
          else (f.1, (takeFrom xt f.1 f.2 acc).1)
            :: (roundStep xt maxA fs (takeFrom xt f.1 f.2 acc).2).1),
        (roundStep xt maxA fs (takeFrom xt f.1 f.2 acc).2).2) := by
  rw [roundStep, if_neg h]

theorem fetchLoop_zero (xt : Xt) (maxA : Nat) (feeds : List Feed) (acc : Acc) :
    fetchLoop xt maxA 0 feeds acc = none := rfl

theorem fetchLoop_succ_done (xt : Xt) (maxA fuel : Nat) (feeds : List Feed)
    (acc : Acc) (h : maxA ≤ acc.sel.length ∨ feeds = []) :
    fetchLoop xt maxA (fuel + 1) feeds acc = some acc.sel := by
  rw [fetchLoop, if_pos h]

theorem fetchLoop_succ_go (xt : Xt) (maxA fuel : Nat) (feeds : List Feed)
    (acc : Acc) (h : ¬ (maxA ≤ acc.sel.length ∨ feeds = [])) :
    fetchLoop xt maxA (fuel + 1) feeds acc =
      fetchLoop xt maxA fuel (roundStep xt maxA feeds acc).1
        (roundStep xt maxA feeds acc).2 := by
  rw [fetchLoop, if_neg h]

/-! ### Case analysis and measure lemmas -/

theorem takeFrom_cons_cases (xt : Xt) (src : String) (e : Entry) (es : List Entry)
    (acc : Acc) :
    takeFrom xt src (e :: es) acc = takeFrom xt src es acc ∨
    (∃ l, e.link = some l ∧ l ≠ "" ∧ l ∉ acc.seen ∧ xt acc.calls l = none ∧
      takeFrom xt src (e :: es) acc =
        takeFrom xt src es ⟨acc.calls + 1, l :: acc.seen, acc.sel⟩) ∨
    ∃ l x, e.link = some l ∧ l ≠ "" ∧ l ∉ acc.seen ∧ xt acc.calls l = some x ∧
      takeFrom xt src (e :: es) acc =
        (es, ⟨acc.calls + 1, l :: acc.seen, acc.sel ++ [mkArticle src e l x]⟩) := by
  rcases hl : e.link with _ | l
  · exact Or.inl (takeFrom_cons_none xt src es acc hl)
  · by_cases h1 : l = ""
    · subst h1
      exact Or.inl (takeFrom_cons_empty xt src es acc hl)
    · by_cases h2 : l ∈ acc.seen
      · exact Or.inl (takeFrom_cons_seen xt src es acc hl h1 h2)
      · rcases hx : xt acc.calls l with _ | x
        · exact Or.inr (Or.inl ⟨l, rfl, h1, h2, hx,
            takeFrom_cons_fail xt src es acc hl h1 h2 hx⟩)
        · exact Or.inr (Or.inr ⟨l, x, rfl, h1, h2, hx,
            takeFrom_cons_accept xt src es acc hl h1 h2 hx⟩)

theorem takeFrom_length (xt : Xt) (src : String) :
    ∀ (es : List Entry) (acc : Acc),
      ((takeFrom xt src es acc).1).length ≤ es.length := by
  intro es
  induction es with
  | nil => intro acc; rw [takeFrom_nil]
  | cons e rest ih =>
    intro acc
    rcases takeFrom_cons_cases xt src e rest acc with h | ⟨l, _, _, _, _, h⟩ |
      ⟨l, x, _, _, _, _, h⟩
    · rw [h]; exact (ih acc).trans (Nat.le_succ _)
    · rw [h]; exact (ih _).trans (Nat.le_succ _)
    · rw [h]; exact Nat.le_succ _

theorem takeFrom_cons_length_lt (xt : Xt) (src : String) (e : Entry)
    (es : List Entry) (acc : Acc) :
    ((takeFrom xt src (e :: es) acc).1).length < (e :: es).length := by
  rcases takeFrom_cons_cases xt src e es acc with h | ⟨l, _, _, _, _, h⟩ |
    ⟨l, x, _, _, _, _, h⟩
  · rw [h]; exact Nat.lt_succ_of_le (takeFrom_length xt src es acc)
  · rw [h]; exact Nat.lt_succ_of_le (takeFrom_length xt src es _)
  · rw [h]; exact Nat.lt_succ_self _

theorem totalEntries_nil : totalEntries [] = 0 := rfl

theorem totalEntries_cons (f : Feed) (fs : List Feed) :
    totalEntries (f :: fs) = f.2.length + totalEntries fs := by
  simp [totalEntries]

theorem roundStep_total_le (xt : Xt) (maxA : Nat) :
    ∀ (feeds : List Feed) (acc : Acc),
      totalEntries (roundStep xt maxA feeds acc).1 ≤ totalEntries feeds := by
  intro feeds
  induction feeds with
  | nil => intro acc; rw [roundStep_nil]
  | cons f fs ih =>
    intro acc
    by_cases hcap : maxA ≤ acc.sel.length
    · rw [roundStep_cons_cap xt maxA f fs acc hcap]
    · rw [roundStep_cons_go xt maxA f fs acc hcap, totalEntries_cons]
      split
      · exact (ih _).trans (Nat.le_add_left _ _)
      · rw [totalEntries_cons]
        exact Nat.add_le_add (takeFrom_length xt f.1 f.2 acc) (ih _)

theorem roundStep_total_lt (xt : Xt) (maxA : Nat) (f : Feed) (fs : List Feed)
    (acc : Acc) (hne : f.2 ≠ []) (hsel : ¬ maxA ≤ acc.sel.length) :
    totalEntries (roundStep xt maxA (f :: fs) acc).1 < totalEntries (f :: fs) := by
  rcases hf : f.2 with _ | ⟨e, rest⟩
  · exact absurd hf hne
  · rw [roundStep_cons_go xt maxA f fs acc hsel, totalEntries_cons]
    have hlt : ((takeFrom xt f.1 f.2 acc).1).length < f.2.length := by
      rw [hf]; exact takeFrom_cons_length_lt xt f.1 e rest acc
    split
    · exact Nat.lt_of_le_of_lt (roundStep_total_le xt maxA fs _)
        (Nat.lt_add_of_pos_left (by rw [hf]; exact Nat.succ_pos _))
    · rw [totalEntries_cons]
      exact Nat.add_lt_add_of_lt_of_le hlt (roundStep_total_le xt maxA fs _)

theorem roundStep_feeds_ne_nil (xt : Xt) (maxA : Nat) :
    ∀ (feeds : List Feed) (acc : Acc), (∀ g ∈ feeds, g.2 ≠ []) →
      ∀ g ∈ (roundStep xt maxA feeds acc).1, g.2 ≠ [] := by
  intro feeds
  induction feeds with
  | nil => intro acc _ g hg; rw [roundStep_nil] at hg; exact absurd hg (List.not_mem_nil g)
  | cons f fs ih =>
    intro acc hinv g hg
    by_cases hcap : maxA ≤ acc.sel.length
    · rw [roundStep_cons_cap xt maxA f fs acc hcap] at hg
      exact hinv g hg
    · rw [roundStep_cons_go xt maxA f fs acc hcap] at hg
      dsimp only at hg
      split at hg
      · exact ih _ (fun g' hg' => hinv g' (List.mem_cons_of_mem f hg')) g hg
      · rcases List.mem_cons.1 hg with hg' | hg'
        · rename_i hne
          rw [hg']
          exact hne
        · exact ih _ (fun g' hg'' => hinv g' (List.mem_cons_of_mem f hg'')) g hg'

/-! ### Invariant preservation -/

theorem takeFrom_selInv (xt : Xt) (src : String) :
    ∀ (es : List Entry) (acc : Acc), SelInv xt acc →
      SelInv xt (takeFrom xt src es acc).2 := by
  intro es
  induction es with
  | nil => intro acc h; rw [takeFrom_nil]; exact h
  | cons e rest ih =>
    intro acc h
    rcases takeFrom_cons_cases xt src e rest acc with heq | ⟨l, hl, h1, h2, hx, heq⟩ |
      ⟨l, x, hl, h1, h2, hx, heq⟩
    · rw [heq]; exact ih acc h
    · rw [heq]
      refine ih _ ⟨h.1, fun a ha => List.mem_cons_of_mem l (h.2.1 a ha), h.2.2⟩
    · rw [heq]
      obtain ⟨hnd, hseen, hprov⟩ := h
      have hnotsel : l ∉ acc.sel.map Article.link := by
        intro hmem
        rcases List.mem_map.1 hmem with ⟨a, ha, hla⟩
        exact h2 (hla ▸ hseen a ha)
      refine ⟨?_, ?_, ?_⟩
      · dsimp only
        rw [List.map_append]
        refine List.nodup_append.2 ⟨hnd, List.nodup_singleton _, fun b hb hb' => ?_⟩
        rw [List.mem_singleton.1 hb'] at hb
        exact hnotsel hb
      · intro a ha
        rcases List.mem_append.1 ha with ha' | ha'
        · exact List.mem_cons_of_mem l (hseen a ha')
        · rw [List.mem_singleton.1 ha']
          exact List.mem_cons_self l acc.seen
      · intro a ha
        rcases List.mem_append.1 ha with ha' | ha'
        · exact hprov a ha'
        · rw [List.mem_singleton.1 ha']
          exact ⟨src, e, l, x, acc.calls, hl, h1, hx, rfl⟩

theorem roundStep_selInv (xt : Xt) (maxA : Nat) :
    ∀ (feeds : List Feed) (acc : Acc), SelInv xt acc →
      SelInv xt (roundStep xt maxA feeds acc).2 := by
  intro feeds
  induction feeds with
  | nil => intro acc h; rw [roundStep_nil]; exact h
  | cons f fs ih =>
    intro acc h
    by_cases hcap : maxA ≤ acc.sel.length
    · rw [roundStep_cons_cap xt maxA f fs acc hcap]; exact h
    · rw [roundStep_cons_go xt maxA f fs acc hcap]
      exact ih _ (takeFrom_selInv xt f.1 f.2 acc h)

theorem fetchLoop_selInv (xt : Xt) (maxA : Nat) :
    ∀ (fuel : Nat) (feeds : List Feed) (acc : Acc) (r : List Article),
      SelInv xt acc → fetchLoop xt maxA fuel feeds acc = some r →
      (r.map Article.link).Nodup ∧ ∀ a ∈ r, Prov xt a := by
  intro fuel
  induction fuel with
  | zero =>
    intro feeds acc r _ heq
    rw [fetchLoop_zero] at heq
    exact absurd heq (Option.noConfusion)
  | succ n ih =>
    intro feeds acc r h heq
    by_cases hstop : maxA ≤ acc.sel.length ∨ feeds = []
    · rw [fetchLoop_succ_done xt maxA n feeds acc hstop] at heq
      obtain rfl : acc.sel = r := Option.some.inj heq
      exact ⟨h.1, h.2.2⟩
    · rw [fetchLoop_succ_go xt maxA n feeds acc hstop] at heq
      exact ih _ _ r (roundStep_selInv xt maxA feeds acc h) heq

theorem initFeeds_ne_nil (polls : List (Option (String × List Entry))) :
    ∀ g ∈ initFeeds polls, g.2 ≠ [] := by
  intro g hg
  rw [initFeeds, List.mem_filterMap] at hg
  obtain ⟨p, _, hp⟩ := hg
  rcases p with _ | ⟨src, es⟩
  · exact absurd hp (Option.noConfusion)
  · dsimp only at hp
    by_cases hes : es = []
    · rw [if_pos hes] at hp
      exact absurd hp (Option.noConfusion)
    · rw [if_neg hes] at hp
      obtain rfl : (src, es) = g := Option.some.inj hp
      exact hes

theorem fetchLoop_some (xt : Xt) (maxA : Nat) :
    ∀ (fuel : Nat) (feeds : List Feed) (acc : Acc), (∀ g ∈ feeds, g.2 ≠ []) →
      totalEntries feeds < fuel →
      ∃ r, fetchLoop xt maxA fuel feeds acc = some r := by
  intro fuel
  induction fuel with
  | zero =>
    intro feeds acc _ hlt
    exact absurd hlt (Nat.not_lt_zero _)
  | succ n ih =>
    intro feeds acc hinv hlt
    by_cases hstop : maxA ≤ acc.sel.length ∨ feeds = []
    · exact ⟨acc.sel, fetchLoop_succ_done xt maxA n feeds acc hstop⟩
    · have hsel : ¬ maxA ≤ acc.sel.length := fun h => hstop (Or.inl h)
      rcases feeds with _ | ⟨f, fs⟩
      · exact absurd (Or.inr rfl) hstop
      · rw [fetchLoop_succ_go xt maxA n (f :: fs) acc hstop]
        refine ih _ _ (roundStep_feeds_ne_nil xt maxA (f :: fs) acc hinv) ?_
        have h1 := roundStep_total_lt xt maxA f fs acc
          (hinv f (List.mem_cons_self f fs)) hsel
        exact Nat.lt_of_lt_of_le h1 (Nat.lt_succ_iff.1 hlt)

/-- Top-level invariant of `fetch_news`: the returned links are pairwise
distinct and every returned article has extraction provenance. -/
theorem fetch_news_spec (xt : Xt) (polls : List (Option (String × List Entry)))
    (maxA : Nat) :
    (((fetch_news xt polls maxA).map Article.link).Nodup) ∧
      ∀ a ∈ fetch_news xt polls maxA, Prov xt a := by
  have hinit : SelInv xt ⟨0, [], []⟩ :=
    ⟨List.nodup_nil, fun a ha => absurd ha (List.not_mem_nil a),
      fun a ha => absurd ha (List.not_mem_nil a)⟩
  rw [fetch_news]
  by_cases hfe : initFeeds polls = []
  · rw [if_pos hfe]
    exact ⟨List.nodup_nil, fun a ha => absurd ha (List.not_mem_nil a)⟩
  · rw [if_neg hfe]
    rcases heq : fetchLoop xt maxA (totalEntries (initFeeds polls) + 1)
        (initFeeds polls) ⟨0, [], []⟩ with _ | r
    · simp only [Option.getD_none, List.take_nil]
      exact ⟨List.nodup_nil, fun a ha => absurd ha (List.not_mem_nil a)⟩
    · simp only [Option.getD_some]
      obtain ⟨hnd, hprov⟩ := fetchLoop_selInv xt maxA _ _ _ r hinit heq
      constructor
      · rw [List.map_take]
        exact List.Nodup.sublist (List.take_sublist maxA _) hnd
      · intro a ha
        exact hprov a (List.mem_of_mem_take ha)

/-! ### Truncation helpers -/

theorem strTake_length_le (s : String) (n : Nat) : (strTake s n).length ≤ n := by
  show (s.data.take n).length ≤ n
  rw [List.length_take]
  exact min_le_left _ _

theorem strTake_zero (s : String) : strTake s 0 = "" := rfl

theorem strTake_self (s : String) : strTake s s.length = s := by
  cases s with
  | mk d =>
    show String.mk (d.take d.length) = String.mk d
    rw [List.take_length]

theorem textField_length (t : Option String) : (textField t).length ≤ 2000 := by
  rcases t with _ | s
  · exact Nat.zero_le _
  · rw [textField]
    by_cases h : s = ""
    · rw [if_pos h]; exact Nat.zero_le _
    · rw [if_neg h]; exact strTake_length_le s 2000

/-! ### Claims -/

/-- Claim C1: with feeds `A = [a1, a2, a3]`, `B = [b1, b2]`, `C` failing to
poll, `max_articles = 4` and every extraction succeeding, `fetch_news` returns
exactly the articles for links `a1, b1, a2, b2` in that order: one accepted
item per active feed per round, feeds visited in declared order, `C` never in
rotation. -/
theorem C1_round_robin_scenario :
    fetch_news xtC1 pollsC1 4 = [artA1, artB1, artA2, artB2] := by
  rfl

/-- Claim C2: for every poll outcome list, every pattern of extraction
successes and failures and every `max_articles`, the list returned by
`fetch_news` has length at most `max_articles`. -/
theorem C2_cap (xt : Xt) (polls : List (Option (String × List Entry)))
    (maxA : Nat) : (fetch_news xt polls maxA).length ≤ maxA := by
  rw [fetch_news]
  by_cases hfe : initFeeds polls = []
  · rw [if_pos hfe]
    exact Nat.zero_le _
  · rw [if_neg hfe, List.length_take]
    exact min_le_left _ _

/-- Claim C3: in every run of `fetch_news`, no two returned articles share the
same `link` value. -/
theorem C3_unique_links (xt : Xt) (polls : List (Option (String × List Entry)))
    (maxA : Nat) : ((fetch_news xt polls maxA).map Article.link).Nodup :=
  (fetch_news_spec xt polls maxA).1

/-- Claim C4, counterexample: two feeds each offer the same link `x`; the
first download attempt fails and the second would succeed.  Contrary to the
claim, the failed link is recorded in `seen_links` (first conjunct), so the
second feed's entry is skipped as a duplicate and `fetch_news` returns nothing
(third conjunct) even though its extraction attempt would have succeeded
(second conjunct). -/
theorem C4_counterexample :
    (takeFrom xtC4 "A" [eX1] ⟨0, [], []⟩).2.seen = ["x"] ∧
      xtC4 1 "x" = some ⟨some "T", some "body"⟩ ∧
      fetch_news xtC4 pollsC4 5 = [] :=
  ⟨rfl, rfl, rfl⟩

/-- Claim C4, amended: a link is recorded in `seen_links` as soon as its entry
passes the truthy-and-unseen check, before extraction is attempted; an entry
whose extraction fails is skipped but its link stays recorded, and a later
entry with the same link is skipped as a duplicate (without any extraction
attempt), so the failed link does block it. -/
theorem C4_amended_seen_records_attempt (xt : Xt) (src : String) (e : Entry)
    (es : List Entry) (acc : Acc) (l : String) (hl : e.link = some l)
    (h1 : l ≠ "") :
    (l ∉ acc.seen → xt acc.calls l = none →
      takeFrom xt src (e :: es) acc =
        takeFrom xt src es ⟨acc.calls + 1, l :: acc.seen, acc.sel⟩) ∧
      (l ∈ acc.seen → takeFrom xt src (e :: es) acc = takeFrom xt src es acc) :=
  ⟨fun h2 hx => takeFrom_cons_fail xt src es acc hl h1 h2 hx,
    fun h2 => takeFrom_cons_seen xt src es acc hl h1 h2⟩

/-- Witness for the amended claim C4 at the concrete duplicate-after-failure
scenario. -/
theorem C4_amended_witness :
    takeFrom xtC4 "A" [eX1] ⟨0, [], []⟩ = takeFrom xtC4 "A" [] ⟨1, ["x"], []⟩ ∧
      takeFrom xtC4 "B" [eX2] ⟨1, ["x"], []⟩ = takeFrom xtC4 "B" [] ⟨1, ["x"], []⟩ :=
  ⟨(C4_amended_seen_records_attempt xtC4 "A" eX1 [] ⟨0, [], []⟩ "x" rfl
      (by decide)).1 (by decide) rfl,
    (C4_amended_seen_records_attempt xtC4 "B" eX2 [] ⟨1, ["x"], []⟩ "x" rfl
      (by decide)).2 (by decide)⟩

/-- Claim C5, counterexample: the persistence step is not atomic.  Writing the
document `new` over a prior store `old`, a reader can observe the truncated
file (state `dumpState "new" 0`, contents `some ""`), which is neither the
prior store nor the completed document; in particular a failure right after
the open leaves the prior store destroyed. -/
theorem C5_counterexample : ¬ AtomicReplace ⟨some "old"⟩ "new" := by
  intro h
  have hm : dumpState "new" 0 ∈ saveObservable ⟨some "old"⟩ "new" :=
    List.mem_cons_of_mem _ (List.mem_map.2 ⟨0, List.mem_range.2 (Nat.succ_pos _), rfl⟩)
  rcases h _ hm with h' | h'
  · exact absurd h' (by decide)
  · exact absurd h' (by decide)

/-- Claim C5, amended: the digest is written by opening `daily_data.json` in
truncate mode and streaming the document into it in place.  Every partial
state of the dump is observable: after `k` code points the file holds exactly
the first `k` code points of the new document, immediately after the open it
is empty (the prior store is already destroyed), and only the completed write
leaves the full document. -/
theorem C5_amended_in_place (prior : FS) (doc : String) (k : Nat)
    (hk : k ≤ doc.length) :
    dumpState doc k ∈ saveObservable prior doc ∧
      (dumpState doc k).contents = some (strTake doc k) ∧
      (dumpState doc 0).contents = some "" ∧
      (dumpState doc doc.length).contents = some doc := by
  refine ⟨List.mem_cons_of_mem _
    (List.mem_map.2 ⟨k, List.mem_range.2 (Nat.lt_succ_of_le hk), rfl⟩), rfl, ?_, ?_⟩
  · show some (strTake doc 0) = some ""
    rw [strTake_zero]
  · show some (strTake doc doc.length) = some doc
    rw [strTake_self]

/-- Witness for the amended claim C5 at a concrete write. -/
theorem C5_amended_witness :
    dumpState "new" 1 ∈ saveObservable ⟨some "old"⟩ "new" ∧
      (dumpState "new" 1).contents = some (strTake "new" 1) ∧
      (dumpState "new" 0).contents = some "" ∧
      (dumpState "new" ("new".length)).contents = some "new" :=
  C5_amended_in_place ⟨some "old"⟩ "new" 1 (by decide)

/-- Claim C6: every article produced by `fetch_news` has a `text` of at most
2000 code points, namely the first 2000 code points of the text extracted for
its link (and the empty string when no text was extracted). -/
theorem C6_truncation (xt : Xt) (polls : List (Option (String × List Entry)))
    (maxA : Nat) (a : Article) (ha : a ∈ fetch_news xt polls maxA) :
    a.text.length ≤ 2000 ∧
      ∃ x k, xt k a.link = some x ∧ a.text = textField x.text ∧
        (∀ s, x.text = some s → s ≠ "" → a.text = strTake s 2000) ∧
        (x.text = none ∨ x.text = some "" → a.text = "") := by
  obtain ⟨src, e, l, x, k, hl, h1, hx, rfl⟩ := (fetch_news_spec xt polls maxA).2 a ha
  refine ⟨textField_length x.text, x, k, hx, rfl, ?_, ?_⟩
  · intro s hs hne
    show textField x.text = strTake s 2000
    rw [hs, textField, if_neg hne]
  · intro hcase
    show textField x.text = ""
    rcases hcase with h | h
    · rw [h, textField]
    · rw [h, textField, if_pos rfl]

/-- Witness for claim C6 at a concrete selected article. -/
theorem C6_truncation_witness :
    artA1 ∈ fetch_news xtC1 pollsC1 4 ∧
      (artA1.text.length ≤ 2000 ∧
        ∃ x k, xtC1 k artA1.link = some x ∧ artA1.text = textField x.text ∧
          (∀ s, x.text = some s → s ≠ "" → artA1.text = strTake s 2000) ∧
          (x.text = none ∨ x.text = some "" → artA1.text = "")) :=
  ⟨by decide, C6_truncation xtC1 pollsC1 4 artA1 (by decide)⟩

/-- Claim C7: `generate_summary` on an empty article list returns the fixed
sentinel without consulting the summarization service (the result is the same
for every service); on a non-empty list whose service call fails it returns
the fixed failure sentinel instead of raising. -/
theorem C7_summary_sentinels :
    (∀ (svc : String → List Article → Option String) (topic : String),
        generate_summary svc topic [] =
          "No articles were available to summarize for this topic.") ∧
      ∀ (svc : String → List Article → Option String) (topic : String)
        (arts : List Article), arts ≠ [] → svc topic arts = none →
        generate_summary svc topic arts =
          "Summary generation failed due to an API error." := by
  refine ⟨fun svc topic => rfl, fun svc topic arts h hn => ?_⟩
  rw [generate_summary, if_neg h, hn]

/-- Witness for claim C7 at concrete inputs. -/
theorem C7_summary_witness :
    generate_summary (fun _ _ => none) "Tech" [] =
        "No articles were available to summarize for this topic." ∧
      generate_summary (fun _ _ => none) "Tech" [artA1] =
        "Summary generation failed due to an API error." :=
  ⟨C7_summary_sentinels.1 (fun _ _ => none) "Tech",
    C7_summary_sentinels.2 (fun _ _ => none) "Tech" [artA1] (by decide) rfl⟩

/-- Claim C8: every selected article resolves `title` as feed-entry title,
then extracted page title (when non-empty), then the literal `No Title`, and
resolves `published` as the feed entry's published string or the literal
`Unknown` when absent. -/
theorem C8_field_resolution (xt : Xt) (polls : List (Option (String × List Entry)))
    (maxA : Nat) (a : Article) (ha : a ∈ fetch_news xt polls maxA) :
    ∃ (e : Entry) (x : Extracted), (∀ t, e.title = some t → a.title = t) ∧
      (e.title = none → ∀ s, x.title = some s → s ≠ "" → a.title = s) ∧
      (e.title = none → x.title = none ∨ x.title = some "" → a.title = "No Title") ∧
      (∀ p, e.published = some p → a.published = p) ∧
      (e.published = none → a.published = "Unknown") := by
  obtain ⟨src, e, l, x, k, hl, h1, hx, rfl⟩ := (fetch_news_spec xt polls maxA).2 a ha
  refine ⟨e, x, ?_, ?_, ?_, ?_, ?_⟩
  · intro t ht
    show e.title.getD (pyOr x.title "No Title") = t
    rw [ht, Option.getD_some]
  · intro hnone s hs hne
    show e.title.getD (pyOr x.title "No Title") = s
    rw [hnone, Option.getD_none, hs, pyOr, if_neg hne]
  · intro hnone hcase
    show e.title.getD (pyOr x.title "No Title") = "No Title"
    rw [hnone, Option.getD_none]
    rcases hcase with h | h
    · rw [h, pyOr]
    · rw [h, pyOr, if_pos rfl]
  · intro p hp
    show e.published.getD "Unknown" = p
    rw [hp, Option.getD_some]
  · intro hp
    show e.published.getD "Unknown" = "Unknown"
    rw [hp, Option.getD_none]

/-- Witness for claim C8 at a concrete selected article. -/
theorem C8_field_resolution_witness :
    artB2 ∈ fetch_news xtC1 pollsC1 4 ∧
      ∃ (e : Entry) (x : Extracted), (∀ t, e.title = some t → artB2.title = t) ∧
        (e.title = none → ∀ s, x.title = some s → s ≠ "" → artB2.title = s) ∧
        (e.title = none → x.title = none ∨ x.title = some "" →
          artB2.title = "No Title") ∧
        (∀ p, e.published = some p → artB2.published = p) ∧
        (e.published = none → artB2.published = "Unknown") :=
  ⟨by decide, C8_field_resolution xtC1 pollsC1 4 artB2 (by decide)⟩

/-- Claim C9: for every finite input the selection loop of `fetch_news`
terminates — fuel `totalEntries + 1` (one unit per round, each round popping
at least one entry or removing at least one feed) always suffices for the
fuelled loop to reach its exit condition. -/
theorem C9_termination (xt : Xt) (polls : List (Option (String × List Entry)))
    (maxA : Nat) :
    ∃ r, fetchLoop xt maxA (totalEntries (initFeeds polls) + 1)
      (initFeeds polls) ⟨0, [], []⟩ = some r :=
  fetchLoop_some xt maxA _ _ _ (initFeeds_ne_nil polls) (Nat.lt_succ_self _)

/-- Claim C10: an entry whose link is missing or empty is silently discarded:
popping it leaves the selection state unchanged and the loop keeps popping the
same feed's next entry within the same round (first conjunct: the step on
such an entry equals the step on the remaining queue — nothing is selected,
nothing enters `seen_links`, nothing counts toward the cap), and no article
with an empty link ever appears in the output (second conjunct). -/
theorem C10_linkless_discarded :
    (∀ (xt : Xt) (src : String) (e : Entry) (es : List Entry) (acc : Acc),
        e.link = none ∨ e.link = some "" →
        takeFrom xt src (e :: es) acc = takeFrom xt src es acc) ∧
      ∀ (xt : Xt) (polls : List (Option (String × List Entry))) (maxA : Nat)
        (a : Article), a ∈ fetch_news xt polls maxA → a.link ≠ "" := by
  constructor
  · intro xt src e es acc h
    rcases h with h | h
    · exact takeFrom_cons_none xt src es acc h
    · exact takeFrom_cons_empty xt src es acc h
  · intro xt polls maxA a ha
    obtain ⟨src, e, l, x, k, hl, h1, hx, rfl⟩ := (fetch_news_spec xt polls maxA).2 a ha
    exact h1

/-- Witness for claim C10: a linkless entry at the head of a feed is skipped
without any state change, and a concrete selected article has a non-empty
link. -/
theorem C10_linkless_witness :
    takeFrom xtC1 "A" (⟨none, some "t", none⟩ :: [eA1]) ⟨0, [], []⟩ =
        takeFrom xtC1 "A" [eA1] ⟨0, [], []⟩ ∧
      artA1.link ≠ "" :=
  ⟨C10_linkless_discarded.1 xtC1 "A" ⟨none, some "t", none⟩ [eA1] ⟨0, [], []⟩
      (Or.inl rfl),
    C10_linkless_discarded.2 xtC1 pollsC1 4 artA1 (by decide)⟩

end DailyBot
